import Mathlib

/-!
Shallow embedding of `src/Scanner.py` (a one-shot market screener) and
verification of its specification claims.

Numeric modelling: market data values are exact rationals.  Quantities that
the program computes by floating-point division (the proximity ratios, and
the 52-week high when the 52-week window is empty) are modelled by `FV`, an
extended value type with IEEE-754-style infinities and NaN, because numpy
float64 division by zero does not raise: it produces an infinity or NaN with
a runtime warning.  The zero is modelled as +0 (the program never produces a
negative zero in the relevant places).
-/

set_option maxRecDepth 20000

namespace Scanner

/-- Extended numeric value: a finite rational, an infinity, or NaN.  Models
the IEEE-754 float64 values the program can produce. -/
inductive FV where
  | fin (q : ℚ)
  | inf
  | negInf
  | nan
deriving DecidableEq, Repr

/-- IEEE-style subtraction on extended values. -/
def FV.sub : FV → FV → FV
  | .nan, _ => .nan
  | _, .nan => .nan
  | .fin a, .fin b => .fin (a - b)
  | .inf, .inf => .nan
  | .negInf, .negInf => .nan
  | .inf, _ => .inf
  | .negInf, _ => .negInf
  | .fin _, .inf => .negInf
  | .fin _, .negInf => .inf

/-- IEEE-style division on extended values (with the zero treated as +0):
finite/0 is an infinity of the numerator's sign, 0/0 is NaN — exactly what
numpy float64 division yields (it warns instead of raising). -/
def FV.div : FV → FV → FV
  | .nan, _ => .nan
  | _, .nan => .nan
  | .fin a, .fin b =>
      if b = 0 then (if 0 < a then .inf else if a < 0 then .negInf else .nan)
      else .fin (a / b)
  | .fin _, .inf => .fin 0
  | .fin _, .negInf => .fin 0
  | .inf, .fin b => if b < 0 then .negInf else .inf
  | .negInf, .fin b => if b < 0 then .inf else .negInf
  | .inf, _ => .nan
  | .negInf, _ => .nan

/-- IEEE-style ordered comparison: every comparison with NaN is false. -/
def FV.le : FV → FV → Bool
  | .nan, _ => false
  | _, .nan => false
  | .negInf, _ => true
  | _, .inf => true
  | .inf, _ => false
  | .fin a, .fin b => decide (a ≤ b)
  | .fin _, .negInf => false

/-- Whether an extended value is a finite number. -/
def FV.isFinite : FV → Bool
  | .fin _ => true
  | _ => false

/-- Round to 2 decimal places, ties to even — the rounding used by
`DataFrame.round(2)` (numpy round-half-even). -/
def round2 (q : ℚ) : ℚ :=
  let s := q * 100
  let f : ℤ := ⌊s⌋
  let r : ℤ :=
    if s - f < 1/2 then f
    else if 1/2 < s - f then f + 1
    else if f % 2 = 0 then f else f + 1
  (r : ℚ) / 100

/-- Rounding lifted to extended values: infinities and NaN round to
themselves. -/
def FV.round2F : FV → FV
  | .fin q => .fin (round2 q)
  | x => x

/-- One row of the price history returned by `tk.history(period="max")`:
a timestamp (in days) with the day's High and Close.  The data values
themselves are finite. -/
structure Bar where
  time : ℤ
  high : ℚ
  close : ℚ
deriving DecidableEq, Repr

/-- The fields of `tk.info` that `fetch_info` reads.  A `none` field models
a key missing from the response dictionary. -/
structure Info where
  sector : Option String
  marketCap : Option ℚ
  averageVolume : Option ℚ
deriving DecidableEq, Repr

/-- The outcome of the outbound calls inside `fetch_info`'s try block:
either some call raises an exception, or the info dictionary and price
history are obtained. -/
inductive FetchResp where
  | raises
  | ok (info : Info) (hist : List Bar)
deriving DecidableEq, Repr

/-- The record dictionary built by `fetch_info` (the Python key "52wHigh"
is spelled `week52High` here). -/
structure Record where
  Ticker : String
  Sector : String
  Current : ℚ
  AllTimeHigh : ℚ
  PctToATH : FV
  week52High : FV
  PctTo52w : FV
  MarketCap : ℚ
  AvgVolume : ℚ
deriving DecidableEq, Repr

/-- Maximum of a nonempty collection of rationals, given as head plus tail:
models `Series.max()` on a nonempty series. -/
def maxQ (x : ℚ) (xs : List ℚ) : ℚ := xs.foldl max x

/-- The all-time high: `hist["High"].max()` over the nonempty history. -/
def athOf (b : Bar) (bs : List Bar) : ℚ := maxQ b.high (bs.map Bar.high)

/-- The 52-week high: `hist.loc[hist.index >= cutoff, "High"].max()` with
`cutoff = now - 365 days`.  When no row lies in the window, pandas takes the
max of an empty selection, which is NaN. -/
def w52Of (now : ℤ) (hist : List Bar) : FV :=
  match hist.filter (fun bb => decide (now - 365 ≤ bb.time)) with
  | [] => FV.nan
  | c :: cs => FV.fin (maxQ c.high (cs.map Bar.high))

/-- The current price: `hist["Close"].iloc[-1]`, the last row's Close. -/
def currOf (b : Bar) (bs : List Bar) : ℚ := (bs.getLastD b).close

/-- Embedding of `fetch_info` (Scanner.py lines 139-173).  The try block's
possible exception is the `raises` response, mapped to `none` by the except
clause.  Missing info fields are defaulted by `info.get`: sector to "N/A",
marketCap and averageVolume to 0.  An empty history returns `none`.  The
`None in (ath, w52, curr)` check never fires: pandas yields NaN, never
`None`, for these float aggregates.  The proximity ratios are computed by
float division, which for a zero high silently produces an infinity or
NaN. -/
def fetch_info (now : ℤ) (ticker : String) (resp : FetchResp) : Option Record :=
  match resp with
  | .raises => none
  | .ok info hist =>
    let sector := info.sector.getD "N/A"
    let mc := info.marketCap.getD 0
    let adv := info.averageVolume.getD 0
    match hist with
    | [] => none
    | b :: bs =>
      let ath := athOf b bs
      let w52 := w52Of now (b :: bs)
      let curr := currOf b bs
      some {
        Ticker := ticker
        Sector := sector
        Current := curr
        AllTimeHigh := ath
        PctToATH := FV.div (FV.sub (FV.fin ath) (FV.fin curr)) (FV.fin ath)
        week52High := w52
        PctTo52w := FV.div (FV.sub w52 (FV.fin curr)) w52
        MarketCap := mc
        AvgVolume := adv }

/-- The three threshold globals.  They hold float values (an interactive
override can in principle set them to an infinity or NaN via `float`), so
they are extended values. -/
structure Config where
  MIN_MARKET_CAP : FV
  MIN_AVG_VOLUME : FV
  MAX_PCT : FV
deriving DecidableEq, Repr

def DEFAULT_MIN_MARKET_CAP : ℚ := 500000000

def DEFAULT_MIN_AVG_VOLUME : ℚ := 1000000

def DEFAULT_MAX_PCT : ℚ := 1/20

/-- The compiled-in default thresholds. -/
def defaultConfig : Config :=
  ⟨FV.fin DEFAULT_MIN_MARKET_CAP, FV.fin DEFAULT_MIN_AVG_VOLUME, FV.fin DEFAULT_MAX_PCT⟩

/-- Embedding of the screening condition (Scanner.py lines 197-201). -/
def passes (cfg : Config) (d : Record) : Bool :=
  FV.le cfg.MIN_MARKET_CAP (FV.fin d.MarketCap) &&
  FV.le cfg.MIN_AVG_VOLUME (FV.fin d.AvgVolume) &&
  (FV.le d.PctToATH cfg.MAX_PCT || FV.le d.PctTo52w cfg.MAX_PCT)

/-- Rendering of one record for the output sinks: `.round(2)` applied to
every numeric column (Scanner.py lines 210-212). -/
def renderRecord (r : Record) : Record :=
  { r with
    Current := round2 r.Current
    AllTimeHigh := round2 r.AllTimeHigh
    PctToATH := FV.round2F r.PctToATH
    week52High := FV.round2F r.week52High
    PctTo52w := FV.round2F r.PctTo52w
    MarketCap := round2 r.MarketCap
    AvgVolume := round2 r.AvgVolume }

/-- The fetch-and-screen loop (Scanner.py lines 187-202): the futures
resolve in some completion order `order`; each resolved non-dict result is
skipped, each dict is screened and, if it passes, appended. -/
def runScan (now : ℤ) (cfg : Config) (fetchO : String → FetchResp)
    (order : List String) : List Record :=
  order.filterMap fun t =>
    match fetch_info now t (fetchO t) with
    | none => none
    | some d => if passes cfg d then some d else none

/-- One column of the universe CSV: a header and the column's values
(`none` models a NaN cell dropped by `dropna()`). -/
structure Column where
  header : String
  values : List (Option String)
deriving DecidableEq, Repr

/-- The universe CSV as read by `pd.read_csv`. -/
structure Csv where
  cols : List Column
deriving DecidableEq, Repr

/-- Model of Python's `str.lower()` (ASCII case folding, which is all the
program's header and token comparisons need). -/
def pyLower (s : String) : String := ⟨s.data.map Char.toLower⟩

/-- Model of Python's `str.strip()`: remove leading and trailing
whitespace. -/
def pyStrip (s : String) : String :=
  ⟨((s.data.dropWhile Char.isWhitespace).reverse.dropWhile Char.isWhitespace).reverse⟩

/-- The accepted symbol-column header names. -/
def tickerNames : List String := ["ticker", "symbol", "code"]

/-- Embedding of line 178: the first column whose lower-cased header is
ticker, symbol or code. -/
def findTickerCol (csv : Csv) : Option Column :=
  csv.cols.find? (fun c => tickerNames.contains (pyLower c.header))

/-- Embedding of line 183: the symbol column's values with NaN cells
dropped (`astype(str)` is the identity on our string cells). -/
def tickersOf (col : Column) : List String := col.values.filterMap id

/-- The external world of one run: the universe file (`none` when
`pd.read_csv` raises), the current time, the per-symbol fetch responses,
and whether each output sink raises. -/
structure Env where
  csv : Option Csv
  now : ℤ
  fetchO : String → FetchResp
  csvSinkFails : Bool
  sheetFails : Bool

/-- Terminal state of one invocation of `scan_and_save`:
`loadError` models `pd.read_csv` raising (uncaught);
`configError` models the "No ticker column found" message plus `return`;
`noMatches` models the "No matches today." message plus `return`;
`sinkError rows b` models a sink raising (uncaught), `b` recording whether
the CSV file had already been written;
`published rows` models both sinks receiving the rendered rows. -/
inductive Outcome where
  | loadError
  | configError (headers : List String)
  | noMatches
  | sinkError (rows : List Record) (csvReceived : Bool)
  | published (rows : List Record)
deriving DecidableEq, Repr

/-- Embedding of `scan_and_save` (Scanner.py lines 176-218), with the
completion order of the futures passed explicitly (theorems relate it to
the submitted tickers by permutation). -/
def scan_and_save (cfg : Config) (env : Env) (order : List String) : Outcome :=
  match env.csv with
  | none => .loadError
  | some csv =>
    match findTickerCol csv with
    | none => .configError (csv.cols.map Column.header)
    | some _col =>
      let results := runScan env.now cfg env.fetchO order
      if results = [] then .noMatches
      else
        let rows := results.map renderRecord
        if env.csvSinkFails then .sinkError rows false
        else if env.sheetFails then .sinkError rows true
        else .published rows

/-- Process exit status for each outcome: the script ends normally (status
0) on every path of `scan_and_save` that returns, and dies with a traceback
(status 1) exactly when an exception escapes (`read_csv` or a sink
raising). -/
def exitCode : Outcome → Nat
  | .loadError => 1
  | .configError _ => 0
  | .noMatches => 0
  | .sinkError _ _ => 1
  | .published _ => 0

/-- Numeric value of a list of decimal digit characters. -/
def digitsVal (l : List Char) : ℕ :=
  l.foldl (fun acc c => 10 * acc + (c.toNat - 48)) 0

/-- Model of Python's `float(s)` builtin as used on line 224 etc.:
surrounding whitespace is stripped, an optional sign is read, then either
inf/infinity/nan (case-insensitive) or a decimal literal
digits[.digits][e[sign]digits] with at least one mantissa digit.
`none` models `float` raising ValueError.  (Digit-group underscores and
non-ASCII digits, which CPython also accepts, are not modelled; no theorem
instantiates them.) -/
def pyFloat (s : String) : Option FV :=
  let t := pyLower (pyStrip s)
  let cs := t.data
  let sgnU : ℚ × List Char :=
    match cs with
    | '+' :: r => (1, r)
    | '-' :: r => (-1, r)
    | r => (1, r)
  let sgn := sgnU.1
  let u := sgnU.2
  if u = ['i','n','f'] ∨ u = ['i','n','f','i','n','i','t','y'] then
    some (if sgn = 1 then FV.inf else FV.negInf)
  else if u = ['n','a','n'] then some FV.nan
  else
    let mantE := u.span (fun c => c ≠ 'e')
    let expOpt : Option ℤ :=
      match mantE.2 with
      | [] => some 0
      | _ :: er =>
        let sgnE : ℤ × List Char :=
          match er with
          | '+' :: r => (1, r)
          | '-' :: r => (-1, r)
          | r => (1, r)
        if sgnE.2 ≠ [] ∧ sgnE.2.all Char.isDigit then
          some (sgnE.1 * (digitsVal sgnE.2 : ℤ))
        else none
    let ipF := mantE.1.span (fun c => c ≠ '.')
    let fpOpt : Option (List Char) :=
      match ipF.2 with
      | [] => some []
      | _ :: fr => if fr.all Char.isDigit then some fr else none
    match expOpt, fpOpt with
    | some e, some fp =>
      if ipF.1.all Char.isDigit ∧ (ipF.1 ≠ [] ∨ fp ≠ []) then
        let base : ℚ := (digitsVal ipF.1 : ℚ) + (digitsVal fp : ℚ) / (10 : ℚ) ^ fp.length
        let scaled : ℚ :=
          if 0 ≤ e then base * (10 : ℚ) ^ e.toNat else base / (10 : ℚ) ^ (-e).toNat
        some (FV.fin (sgn * scaled))
      else none
    | _, _ => none

/-- Result of one interactive threshold override: the value the global
ends up holding and whether the "Invalid—using default." warning was
printed. -/
structure OverrideResult where
  value : FV
  warned : Bool
deriving DecidableEq, Repr

/-- Embedding of one override block of the `__main__` section (e.g. lines
222-225): the branch is taken when the input is not the acceptance token y
(case-insensitive) and is truthy after `strip()`; inside it, `float`
success sets the global and failure prints the warning and keeps the
default. -/
def applyOverride (deflt : ℚ) (inp : String) : OverrideResult :=
  if pyLower inp ≠ "y" ∧ pyStrip inp ≠ "" then
    match pyFloat inp with
    | some v => ⟨v, false⟩
    | none => ⟨FV.fin deflt, true⟩
  else ⟨FV.fin deflt, false⟩

/-- Embedding of the whole `__main__` section (lines 221-236): the three
override prompts build the effective configuration, then the scan runs
unconditionally — there is no abort path between the prompts and the
scan. -/
def mainRun (i1 i2 i3 : String) (env : Env) (order : List String) : Outcome :=
  scan_and_save
    ⟨(applyOverride DEFAULT_MIN_MARKET_CAP i1).value,
     (applyOverride DEFAULT_MIN_AVG_VOLUME i2).value,
     (applyOverride DEFAULT_MAX_PCT i3).value⟩
    env order

/-! ### Concrete fixtures used by witnesses and counterexamples -/

def infoFull : Info := ⟨some "Tech", some 1000000000, some 2000000⟩

def goodBar : Bar := ⟨0, 100, 98⟩

def goodRec : Record :=
  ⟨"AAA", "Tech", 98, 100, FV.fin (1/50), FV.fin 100, FV.fin (1/50), 1000000000, 2000000⟩

def fetchMix : String → FetchResp :=
  fun t => if t = "AAA" then .ok infoFull [goodBar] else .raises

def goodCsv : Csv := ⟨[⟨"Ticker", [some "AAA"]⟩]⟩

def emptyCsv : Csv := ⟨[⟨"Symbol", []⟩]⟩

def noColCsv : Csv := ⟨[⟨"Name", [some "x"]⟩]⟩

def envNoCol : Env := ⟨some noColCsv, 0, fun _ => .raises, false, false⟩

def envEmptyU : Env := ⟨some emptyCsv, 0, fun _ => .raises, false, false⟩

def envSinkFail : Env := ⟨some goodCsv, 0, fetchMix, true, false⟩

def sepRec : Record :=
  ⟨"SEP", "Tech", 100, 100, FV.fin (27/500), FV.fin 100, FV.fin (27/500), 1000000000, 2000000⟩

def zeroHighResp : FetchResp := .ok infoFull [⟨0, 0, 3⟩]

def zeroHighRec : Record :=
  ⟨"ZZZ", "Tech", 3, 0, FV.negInf, FV.fin 0, FV.negInf, 1000000000, 2000000⟩

def missingMCInfo : Info := ⟨none, none, some 5000000⟩

def missingMCResp : FetchResp := .ok missingMCInfo [⟨0, 10, 9⟩]

def missingMCRec : Record :=
  ⟨"AAA", "N/A", 9, 10, FV.fin (1/10), FV.fin 10, FV.fin (1/10), 0, 5000000⟩

def staleResp : FetchResp := .ok infoFull [⟨-1000, 5, 4⟩]

def staleRec : Record :=
  ⟨"OLD", "Tech", 4, 5, FV.fin (1/5), FV.nan, FV.nan, 1000000000, 2000000⟩

/-! ### Helper lemmas about the embedding -/

theorem le_foldl_max (s : ℚ) (xs : List ℚ) : s ≤ xs.foldl max s := by
  induction xs generalizing s with
  | nil => exact le_refl s
  | cons c cs ih =>
    calc s ≤ max s c := le_max_left s c
    _ ≤ (cs.foldl max (max s c)) := ih (max s c)

theorem le_maxQ_self (x : ℚ) (xs : List ℚ) : x ≤ maxQ x xs :=
  le_foldl_max x xs

theorem le_maxQ_of_mem {y : ℚ} {xs : List ℚ} (x : ℚ) (h : y ∈ xs) :
    y ≤ maxQ x xs := by
  induction xs generalizing x with
  | nil => cases h
  | cons c cs ih =>
    rcases List.mem_cons.mp h with h1 | h2
    · subst h1
      calc y ≤ max x y := le_max_right x y
      _ ≤ (cs.foldl max (max x y)) := le_foldl_max (max x y) cs
    · exact ih (max x c) h2

theorem mem_le_maxQ {z x : ℚ} {xs : List ℚ} (h : z ∈ x :: xs) :
    z ≤ maxQ x xs := by
  rcases List.mem_cons.mp h with h1 | h2
  · subst h1; exact le_maxQ_self z xs
  · exact le_maxQ_of_mem x h2

theorem maxQ_le {x : ℚ} {xs : List ℚ} {M : ℚ} (hx : x ≤ M)
    (hxs : ∀ y ∈ xs, y ≤ M) : maxQ x xs ≤ M := by
  induction xs generalizing x with
  | nil => exact hx
  | cons c cs ih =>
    exact ih (max_le hx (hxs c (List.mem_cons_self c cs)))
      (fun y hy => hxs y (List.mem_cons_of_mem c hy))

theorem FV.sub_fin (a b : ℚ) : FV.sub (FV.fin a) (FV.fin b) = FV.fin (a - b) := rfl

theorem FV.le_fin (a b : ℚ) : FV.le (FV.fin a) (FV.fin b) = decide (a ≤ b) := rfl

theorem FV.div_fin {a b : ℚ} (h : b ≠ 0) :
    FV.div (FV.fin a) (FV.fin b) = FV.fin (a / b) := by
  simp [FV.div, h]

theorem FV.div_fin_zero_neg {a : ℚ} (h : a < 0) :
    FV.div (FV.fin a) (FV.fin 0) = FV.negInf := by
  simp [FV.div, h, asymm h]

theorem div_fin_zero_not_finite (a : ℚ) :
    FV.isFinite (FV.div (FV.fin a) (FV.fin 0)) = false := by
  show FV.isFinite
    (if (0:ℚ) = 0 then (if 0 < a then FV.inf else if a < 0 then FV.negInf else FV.nan)
     else FV.fin (a / 0)) = false
  rw [if_pos rfl]
  split_ifs <;> rfl

/-- Evaluation of the fetch of the healthy fixture symbol. -/
theorem fetch_good_eval : fetch_info 0 "AAA" (.ok infoFull [goodBar]) = some goodRec := by
  have hath : athOf goodBar [] = 100 := rfl
  have hw : w52Of 0 [goodBar] = FV.fin 100 := rfl
  have hc : currOf goodBar [] = 98 := rfl
  simp only [fetch_info, infoFull, Option.getD, hath, hw, hc, FV.sub_fin,
    FV.div_fin (show (100:ℚ) ≠ 0 by norm_num), goodRec]
  norm_num

/-- The healthy fixture record passes the default screening thresholds. -/
theorem passes_good : passes defaultConfig goodRec = true := by
  simp only [passes, goodRec, defaultConfig, FV.le_fin, DEFAULT_MIN_MARKET_CAP,
    DEFAULT_MIN_AVG_VOLUME, DEFAULT_MAX_PCT, Bool.and_eq_true, Bool.or_eq_true,
    decide_eq_true_eq]
  norm_num

theorem fetchMix_AAA : fetchMix "AAA" = .ok infoFull [goodBar] := rfl

/-- Evaluation of the fetch-and-screen loop on the singleton universe. -/
theorem runScan_good : runScan 0 defaultConfig fetchMix ["AAA"] = [goodRec] := by
  simp only [runScan, List.filterMap_cons, List.filterMap_nil, fetchMix_AAA,
    fetch_good_eval, passes_good, if_true]

/-- Evaluation of the fetch of the zero-all-time-high fixture. -/
theorem fetch_zero_eval : fetch_info 0 "ZZZ" zeroHighResp = some zeroHighRec := by
  have hath : athOf ⟨0, 0, 3⟩ [] = 0 := rfl
  have hw : w52Of 0 [(⟨0, 0, 3⟩ : Bar)] = FV.fin 0 := rfl
  have hc : currOf ⟨0, 0, 3⟩ [] = 3 := rfl
  simp only [zeroHighResp, fetch_info, infoFull, Option.getD, hath, hw, hc, FV.sub_fin,
    zeroHighRec]
  rw [show ((0:ℚ) - 3) = -3 by norm_num,
    FV.div_fin_zero_neg (show (-3:ℚ) < 0 by norm_num)]

/-- The zero-all-time-high fixture record passes the default screening. -/
theorem passes_zero : passes defaultConfig zeroHighRec = true := by
  simp only [passes, zeroHighRec, defaultConfig, FV.le_fin, FV.le,
    DEFAULT_MIN_MARKET_CAP, DEFAULT_MIN_AVG_VOLUME, Bool.and_eq_true,
    Bool.or_eq_true, decide_eq_true_eq]
  norm_num

/-- Evaluation of the fetch with marketCap missing from the response. -/
theorem fetch_missing_eval : fetch_info 0 "AAA" missingMCResp = some missingMCRec := by
  have hath : athOf ⟨0, 10, 9⟩ [] = 10 := rfl
  have hw : w52Of 0 [(⟨0, 10, 9⟩ : Bar)] = FV.fin 10 := rfl
  have hc : currOf ⟨0, 10, 9⟩ [] = 9 := rfl
  simp only [missingMCResp, fetch_info, missingMCInfo, Option.getD, hath, hw, hc,
    FV.sub_fin, FV.div_fin (show (10:ℚ) ≠ 0 by norm_num), missingMCRec]
  norm_num

/-- Evaluation of the fetch whose whole history is older than 365 days:
the 52-week window is empty, so the 52-week high is NaN. -/
theorem fetch_stale_eval : fetch_info 0 "OLD" staleResp = some staleRec := by
  have hath : athOf ⟨-1000, 5, 4⟩ [] = 5 := rfl
  have hw : w52Of 0 [(⟨-1000, 5, 4⟩ : Bar)] = FV.nan := rfl
  have hc : currOf ⟨-1000, 5, 4⟩ [] = 4 := rfl
  simp only [staleResp, fetch_info, infoFull, Option.getD, hath, hw, hc, FV.sub_fin,
    FV.div_fin (show (5:ℚ) ≠ 0 by norm_num), staleRec, Option.some.injEq,
    Record.mk.injEq]
  norm_num [FV.sub, FV.div]

/-- The fetch-and-screen loop is the screening filter applied to the
snapshots of the symbols whose fetch succeeded, in completion order. -/
theorem runScan_eq (now : ℤ) (cfg : Config) (fetchO : String → FetchResp)
    (order : List String) :
    runScan now cfg fetchO order =
      (order.filterMap (fun t => fetch_info now t (fetchO t))).filter (passes cfg) := by
  induction order with
  | nil => rfl
  | cons t ts ih =>
    simp only [runScan, List.filterMap_cons] at ih ⊢
    cases h : fetch_info now t (fetchO t) with
    | none => simpa using ih
    | some d =>
      by_cases hp : passes cfg d
      · simp [hp, List.filter_cons, ih]
      · simp [hp, List.filter_cons, ih]

/-! ### Claim C1 -/

/-- Claim C1: the screening predicate accepts a record iff the market-cap
gate, the volume gate and the disjunction of the two proximity tests all
hold; every comparison is boundary-inclusive (exact equality with a finite
threshold passes the clause), and a record passing both gates and either
one of the two proximity tests is accepted regardless of the other. -/
theorem screening_predicate_spec :
    (∀ (cfg : Config) (d : Record), passes cfg d = true ↔
      (FV.le cfg.MIN_MARKET_CAP (FV.fin d.MarketCap) = true ∧
       FV.le cfg.MIN_AVG_VOLUME (FV.fin d.AvgVolume) = true ∧
       (FV.le d.PctToATH cfg.MAX_PCT = true ∨ FV.le d.PctTo52w cfg.MAX_PCT = true)))
    ∧ (∀ (m v p : ℚ) (d : Record),
        d.MarketCap = m → d.AvgVolume = v → d.PctToATH = FV.fin p →
        passes ⟨FV.fin m, FV.fin v, FV.fin p⟩ d = true)
    ∧ (∀ (cfg : Config) (d : Record),
        FV.le cfg.MIN_MARKET_CAP (FV.fin d.MarketCap) = true →
        FV.le cfg.MIN_AVG_VOLUME (FV.fin d.AvgVolume) = true →
        FV.le d.PctTo52w cfg.MAX_PCT = true → passes cfg d = true)
    ∧ (∀ (cfg : Config) (d : Record),
        FV.le cfg.MIN_MARKET_CAP (FV.fin d.MarketCap) = true →
        FV.le cfg.MIN_AVG_VOLUME (FV.fin d.AvgVolume) = true →
        FV.le d.PctToATH cfg.MAX_PCT = true → passes cfg d = true) := by
  refine ⟨fun cfg d => ?_, fun m v p d h1 h2 h3 => ?_, fun cfg d h1 h2 h3 => ?_,
    fun cfg d h1 h2 h3 => ?_⟩
  · simp [passes, Bool.and_eq_true, Bool.or_eq_true, and_assoc]
  · subst h1; subst h2
    simp [passes, h3, FV.le]
  · simp [passes, h1, h2, h3]
  · simp [passes, h1, h2, h3]

/-- Witness for C1: a record whose ATH proximity test fails but whose
52-week proximity test passes is accepted under the default thresholds. -/
theorem screening_predicate_spec_witness :
    FV.le defaultConfig.MIN_MARKET_CAP (FV.fin ((1000000000 : ℚ))) = true ∧
    FV.le defaultConfig.MIN_AVG_VOLUME (FV.fin ((2000000 : ℚ))) = true ∧
    FV.le (FV.fin (1/2)) defaultConfig.MAX_PCT = false ∧
    FV.le (FV.fin 0) defaultConfig.MAX_PCT = true ∧
    passes defaultConfig
      ⟨"AAA", "Tech", 98, 100, FV.fin (1/2), FV.fin 100, FV.fin 0, 1000000000, 2000000⟩ = true := by
  have h1 : FV.le defaultConfig.MIN_MARKET_CAP (FV.fin ((1000000000 : ℚ))) = true := by
    decide
  have h2 : FV.le defaultConfig.MIN_AVG_VOLUME (FV.fin ((2000000 : ℚ))) = true := by
    decide
  have h3 : FV.le (FV.fin (1/2)) defaultConfig.MAX_PCT = false := by
    simp only [defaultConfig, DEFAULT_MAX_PCT, FV.le_fin, decide_eq_false_iff_not]
    norm_num
  have h4 : FV.le (FV.fin 0) defaultConfig.MAX_PCT = true := by
    simp only [defaultConfig, DEFAULT_MAX_PCT, FV.le_fin, decide_eq_true_eq]
    norm_num
  exact ⟨h1, h2, h3, h4,
    screening_predicate_spec.2.2.1 defaultConfig
      ⟨"AAA", "Tech", 98, 100, FV.fin (1/2), FV.fin 100, FV.fin 0, 1000000000, 2000000⟩
      h1 h2 h4⟩

/-! ### Claim C2 -/

/-- Counterexample to C2 as stated: a snapshot whose all-time high is zero
is NOT mapped to Absent.  The float division by the zero high silently
yields negative infinity (numpy warns, it does not raise, so the except
clause is not reached), the populated record is returned, and — worse — the
infinite ratio satisfies the proximity test, so the record is Accepted
under the default thresholds. -/
theorem zero_high_accepted_counterexample :
    fetch_info 0 "ZZZ" zeroHighResp = some zeroHighRec ∧
    zeroHighRec.AllTimeHigh = 0 ∧
    FV.isFinite zeroHighRec.PctToATH = false ∧
    passes defaultConfig zeroHighRec = true :=
  ⟨fetch_zero_eval, rfl, rfl, passes_zero⟩

/-- Amended C2: a snapshot with a zero all-time high is not excluded; the
derivation always returns a populated record (for a nonempty history) whose
ATH ratio is non-finite (an infinity or NaN). -/
theorem zero_high_metric_not_finite :
    ∀ (now : ℤ) (t : String) (info : Info) (b : Bar) (bs : List Bar),
      athOf b bs = 0 →
      ((fetch_info now t (.ok info (b :: bs))).map (fun r => FV.isFinite r.PctToATH))
        = some false := by
  intro now t info b bs h
  simp only [fetch_info, Option.map_some', h]
  exact congrArg some (div_fin_zero_not_finite (0 - currOf b bs))

/-- Witness for the amended C2 at a concrete zero-high history. -/
theorem zero_high_metric_not_finite_witness :
    athOf ⟨0, 0, 3⟩ [] = 0 ∧
    ((fetch_info 0 "ZZZ" (.ok infoFull [⟨0, 0, 3⟩])).map (fun r => FV.isFinite r.PctToATH))
      = some false :=
  ⟨rfl, zero_high_metric_not_finite 0 "ZZZ" infoFull ⟨0, 0, 3⟩ [] rfl⟩

/-! ### Claim C3 -/

/-- Claim C3: per-symbol failures never escape.  `fetch_info` maps an
exception inside its try block to `none`; for any completion order of the
universe, the scan's result is exactly (up to the nondeterministic
completion order) the screened records of the symbols whose fetch
succeeded; and a run whose universe loads and whose sinks do not fail
always terminates in the no-matches or published outcome with exit status
0. -/
theorem partial_failure_isolation :
    (∀ (now : ℤ) (t : String), fetch_info now t .raises = none)
    ∧ (∀ (now : ℤ) (cfg : Config) (fetchO : String → FetchResp)
         (tickers order : List String),
        order.Perm tickers →
        (∃ t ∈ tickers, (fetch_info now t (fetchO t)).isSome = true) →
        List.Perm (runScan now cfg fetchO order)
          ((tickers.filterMap (fun t => fetch_info now t (fetchO t))).filter
            (passes cfg)))
    ∧ (∀ (cfg : Config) (env : Env) (order : List String) (csv : Csv) (col : Column),
        env.csv = some csv → findTickerCol csv = some col →
        env.csvSinkFails = false → env.sheetFails = false →
        (scan_and_save cfg env order = .noMatches ∧
           exitCode (scan_and_save cfg env order) = 0) ∨
        (scan_and_save cfg env order =
           .published ((runScan env.now cfg env.fetchO order).map renderRecord) ∧
         exitCode (scan_and_save cfg env order) = 0)) := by
  refine ⟨fun now t => rfl, fun now cfg fetchO tickers order hperm _hsucc => ?_, ?_⟩
  · rw [runScan_eq]
    exact (hperm.filterMap _).filter _
  · intro cfg env order csv col hcsv hcol hcs hsh
    simp only [scan_and_save, hcsv, hcol]
    by_cases h : runScan env.now cfg env.fetchO order = []
    · left
      simp [h, exitCode]
    · right
      simp [h, hcs, hsh, exitCode]

/-- Witness for C3: a two-symbol universe where exactly one fetch fails,
under a completion order different from the submission order. -/
theorem partial_failure_isolation_witness :
    List.Perm ["BBB", "AAA"] ["AAA", "BBB"] ∧
    (∃ t ∈ ["AAA", "BBB"], (fetch_info 0 t (fetchMix t)).isSome = true) ∧
    List.Perm (runScan 0 defaultConfig fetchMix ["BBB", "AAA"])
      ((["AAA", "BBB"].filterMap (fun t => fetch_info 0 t (fetchMix t))).filter
        (passes defaultConfig)) :=
  ⟨by decide, ⟨"AAA", by decide, by decide⟩,
    partial_failure_isolation.2.1 0 defaultConfig fetchMix ["AAA", "BBB"]
      ["BBB", "AAA"] (by decide) ⟨"AAA", by decide, by decide⟩⟩

/-! ### Claim C4 -/

/-- A missing marketCap key is defaulted to 0 by the fetch, not mapped to
Absent. -/
theorem fetch_missing_mc :
    ∀ (now : ℤ) (t : String) (info : Info) (b : Bar) (bs : List Bar),
      info.marketCap = none →
      ((fetch_info now t (.ok info (b :: bs))).map Record.MarketCap) = some 0 := by
  intro now t info b bs h
  simp [fetch_info, h, Option.getD]

/-- Counterexample to C4 as stated: a response missing the required
marketCap field is not normalized to Absent — `info.get("marketCap", 0)`
defaults it to 0, the populated snapshot is returned and reaches the
screening criteria (where the default thresholds happen to reject it). -/
theorem missing_marketCap_counterexample :
    missingMCInfo.marketCap = none ∧
    fetch_info 0 "AAA" missingMCResp = some missingMCRec ∧
    missingMCRec.MarketCap = 0 ∧
    passes defaultConfig missingMCRec = false :=
  ⟨rfl, fetch_missing_eval, rfl, by decide⟩

/-- Amended C4: a missing marketCap is defaulted to 0 and the snapshot is
passed to screening, where any positive minimum-market-cap threshold
rejects it through the market-cap gate (rejection, not exclusion as
Absent). -/
theorem missing_field_defaulted :
    (∀ (now : ℤ) (t : String) (info : Info) (b : Bar) (bs : List Bar),
       info.marketCap = none →
       ((fetch_info now t (.ok info (b :: bs))).map Record.MarketCap) = some 0)
    ∧ (∀ (now : ℤ) (t : String) (info : Info) (b : Bar) (bs : List Bar)
         (cfg : Config) (m : ℚ) (r : Record),
        info.marketCap = none → cfg.MIN_MARKET_CAP = FV.fin m → 0 < m →
        fetch_info now t (.ok info (b :: bs)) = some r →
        passes cfg r = false) := by
  refine ⟨fetch_missing_mc, ?_⟩
  intro now t info b bs cfg m r hmc hcfg hm hf
  have h0 : r.MarketCap = 0 := by
    have h1 := fetch_missing_mc now t info b bs hmc
    rw [hf] at h1
    exact Option.some.inj h1
  have hnot : ¬ (m ≤ 0) := not_le.mpr hm
  simp [passes, hcfg, h0, FV.le_fin, hnot]

/-- Witness for the amended C4 at the concrete missing-marketCap fetch. -/
theorem missing_field_defaulted_witness :
    missingMCInfo.marketCap = none ∧
    defaultConfig.MIN_MARKET_CAP = FV.fin DEFAULT_MIN_MARKET_CAP ∧
    (0:ℚ) < DEFAULT_MIN_MARKET_CAP ∧
    passes defaultConfig missingMCRec = false :=
  ⟨rfl, rfl, by norm_num [DEFAULT_MIN_MARKET_CAP],
    missing_field_defaulted.2 0 "AAA" missingMCInfo ⟨0, 10, 9⟩ [] defaultConfig
      DEFAULT_MIN_MARKET_CAP missingMCRec rfl rfl
      (by norm_num [DEFAULT_MIN_MARKET_CAP]) fetch_missing_eval⟩

/-! ### Claim C5 -/

/-- Counterexample to C5 as stated: with a universe file whose only column
is "Name", the run reports the missing column and aborts, but the process
then ends normally — the exit status is 0, not the claimed non-zero exit
condition (`scan_and_save` just prints and returns; nothing raises). -/
theorem missing_column_exit_zero :
    scan_and_save defaultConfig envNoCol [] = .configError ["Name"] ∧
    exitCode (scan_and_save defaultConfig envNoCol []) = 0 := by
  constructor <;> decide

/-- Amended C5: with no recognizable symbol column the run reports the
problem (naming the headers), returns before dispatching any fetch (the
outcome is independent of the fetch oracle), and the process exits with
status 0 — the same status as a successful run. -/
theorem missing_column_aborts :
    ∀ (cfg : Config) (env : Env) (order : List String) (csv : Csv),
      env.csv = some csv → findTickerCol csv = none →
      scan_and_save cfg env order = .configError (csv.cols.map Column.header) ∧
      exitCode (scan_and_save cfg env order) = 0 ∧
      (∀ f : String → FetchResp,
        scan_and_save cfg ⟨env.csv, env.now, f, env.csvSinkFails, env.sheetFails⟩ order =
          .configError (csv.cols.map Column.header)) := by
  intro cfg env order csv hcsv hcol
  refine ⟨?_, ?_, fun f => ?_⟩ <;> simp [scan_and_save, hcsv, hcol, exitCode]

/-- Witness for the amended C5 at the concrete no-symbol-column file. -/
theorem missing_column_aborts_witness :
    envNoCol.csv = some noColCsv ∧ findTickerCol noColCsv = none ∧
    scan_and_save defaultConfig envNoCol [] =
      .configError (noColCsv.cols.map Column.header) :=
  ⟨rfl, by decide,
    (missing_column_aborts defaultConfig envNoCol [] noColCsv rfl (by decide)).1⟩

/-! ### Claim C6 -/

/-- Rounding fixes a quantity that is a whole multiple of 1/100. -/
theorem round2_eq_self {q : ℚ} (z : ℤ) (h : q * 100 = (z : ℚ)) : round2 q = q := by
  simp only [round2, h, Int.floor_intCast, sub_self]
  rw [if_pos (show (0:ℚ) < 1/2 by norm_num)]
  rw [div_eq_iff (show (100:ℚ) ≠ 0 by norm_num)]
  exact h.symm

/-- The separating value 0.054 rounds to 0.05 at two decimals. -/
theorem round2_sep : round2 (27/500 : ℚ) = 1/20 := by
  have hs : ((27/500 : ℚ) * 100) = 27/5 := by norm_num
  have hf : ⌊(27/5 : ℚ)⌋ = (5:ℤ) := by
    rw [Int.floor_eq_iff]
    constructor <;> norm_num
  simp only [round2, hs, hf]
  rw [if_pos (show (27/5 : ℚ) - ((5:ℤ) : ℚ) < 1/2 by push_cast; norm_num)]
  push_cast
  norm_num

/-- Evaluation of the rendering of the separating record. -/
theorem render_sep_eval : renderRecord sepRec =
    ⟨"SEP", "Tech", 100, 100, FV.fin (1/20), FV.fin 100, FV.fin (1/20),
      1000000000, 2000000⟩ := by
  have h100 : round2 (100 : ℚ) = 100 := round2_eq_self 10000 (by norm_num)
  have hmc : round2 (1000000000 : ℚ) = 1000000000 :=
    round2_eq_self 100000000000 (by norm_num)
  have hav : round2 (2000000 : ℚ) = 2000000 := round2_eq_self 200000000 (by norm_num)
  simp only [renderRecord, sepRec, FV.round2F, round2_sep, h100, hmc, hav]

/-- The rounded separating record passes the default screening. -/
theorem passes_sep_rounded : passes defaultConfig (renderRecord sepRec) = true := by
  rw [render_sep_eval]
  simp only [passes, defaultConfig, DEFAULT_MIN_MARKET_CAP, DEFAULT_MIN_AVG_VOLUME,
    DEFAULT_MAX_PCT, FV.le_fin, Bool.and_eq_true, Bool.or_eq_true, decide_eq_true_eq]
  norm_num

/-- The raw separating record fails the default screening. -/
theorem passes_sep_raw : passes defaultConfig sepRec = false := by
  simp only [passes, sepRec, defaultConfig, DEFAULT_MAX_PCT, FV.le_fin]
  rw [decide_eq_false (show ¬ ((27/500 : ℚ) ≤ 1/20) by norm_num)]
  simp

/-- Claim C6: screening is evaluated on the exact unrounded values, and
rounding to 2 decimals is applied only to the records being rendered for
the sinks; a record exists whose rounded form would pass while its exact
form is rejected, showing the order matters. -/
theorem rounding_only_at_render :
    (∀ (now : ℤ) (cfg : Config) (fetchO : String → FetchResp) (order : List String)
       (r : Record), r ∈ runScan now cfg fetchO order → passes cfg r = true)
    ∧ (∀ (cfg : Config) (env : Env) (order : List String) (csv : Csv) (col : Column),
        env.csv = some csv → findTickerCol csv = some col →
        env.csvSinkFails = false → env.sheetFails = false →
        runScan env.now cfg env.fetchO order ≠ [] →
        scan_and_save cfg env order =
          .published ((runScan env.now cfg env.fetchO order).map renderRecord))
    ∧ (passes defaultConfig (renderRecord sepRec) = true ∧
       passes defaultConfig sepRec = false) := by
  refine ⟨?_, ?_, passes_sep_rounded, passes_sep_raw⟩
  · intro now cfg fetchO order r hr
    rw [runScan_eq] at hr
    exact (List.mem_filter.mp hr).2
  · intro cfg env order csv col hcsv hcol hcs hsh hne
    simp [scan_and_save, hcsv, hcol, hne, hcs, hsh]

/-- Witness for C6: the accepted fixture record is in the scan result and
satisfies the exact-value screening. -/
theorem rounding_only_at_render_witness :
    goodRec ∈ runScan 0 defaultConfig fetchMix ["AAA"] ∧
    passes defaultConfig goodRec = true :=
  ⟨by rw [runScan_good]; exact List.mem_singleton.mpr rfl,
    rounding_only_at_render.1 0 defaultConfig fetchMix ["AAA"] goodRec
      (by rw [runScan_good]; exact List.mem_singleton.mpr rfl)⟩

/-! ### Claim C7 -/

/-- Claim C7: an empty universe, or a run in which zero records are
accepted, is not an error: the scan result is the well-formed empty list,
the outcome is the explicit no-matches message, and the exit status is
0. -/
theorem empty_result_not_error :
    ∀ (cfg : Config) (env : Env) (order : List String) (csv : Csv) (col : Column),
      env.csv = some csv → findTickerCol csv = some col →
      order.Perm (tickersOf col) →
      (tickersOf col = [] ∨ runScan env.now cfg env.fetchO order = []) →
      runScan env.now cfg env.fetchO order = [] ∧
      scan_and_save cfg env order = .noMatches ∧
      exitCode (scan_and_save cfg env order) = 0 := by
  intro cfg env order csv col hcsv hcol hperm hempty
  have hres : runScan env.now cfg env.fetchO order = [] := by
    rcases hempty with h | h
    · have hnil : order = [] := by
        rw [h] at hperm
        exact hperm.eq_nil
      rw [hnil]
      rfl
    · exact h
  refine ⟨hres, ?_, ?_⟩ <;> simp [scan_and_save, hcsv, hcol, hres, exitCode]

/-- Witness for C7 at the concrete empty universe. -/
theorem empty_result_not_error_witness :
    envEmptyU.csv = some emptyCsv ∧
    findTickerCol emptyCsv = some ⟨"Symbol", []⟩ ∧
    scan_and_save defaultConfig envEmptyU [] = .noMatches ∧
    exitCode (scan_and_save defaultConfig envEmptyU []) = 0 := by
  have h := empty_result_not_error defaultConfig envEmptyU [] emptyCsv ⟨"Symbol", []⟩
    rfl (by decide) (List.Perm.refl _) (Or.inl rfl)
  exact ⟨rfl, by decide, h.2.1, h.2.2⟩

/-! ### Claim C8 -/

/-- Counterexample to C8 as stated: with a universe producing one accepted
record and a failing tabular-file sink, the spreadsheet sink never receives
the scan result (outcome `sinkError _ false`: the write raised before the
spreadsheet push was attempted), and the exception escapes, killing the
process with a non-zero status — it is not logged as a non-fatal
warning. -/
theorem sink_failure_counterexample :
    scan_and_save defaultConfig envSinkFail ["AAA"] =
      .sinkError [renderRecord goodRec] false ∧
    exitCode (scan_and_save defaultConfig envSinkFail ["AAA"]) = 1 := by
  have hcol : findTickerCol goodCsv = some ⟨"Ticker", [some "AAA"]⟩ := by decide
  have h : scan_and_save defaultConfig envSinkFail ["AAA"] =
      .sinkError [renderRecord goodRec] false := by
    simp [scan_and_save, envSinkFail, hcol, runScan_good]
  exact ⟨h, by rw [h]; rfl⟩

/-- Amended C8: the sinks are invoked sequentially with no isolation: a
tabular-file failure prevents the spreadsheet push and escapes (exit 1); if
the file write succeeds, a spreadsheet failure still escapes (exit 1) but
the file sink has already received the rows; only when neither fails do
both sinks receive the rendered rows (exit 0). -/
theorem sinks_sequential :
    ∀ (cfg : Config) (env : Env) (order : List String) (csv : Csv) (col : Column),
      env.csv = some csv → findTickerCol csv = some col →
      runScan env.now cfg env.fetchO order ≠ [] →
      ((env.csvSinkFails = true →
          scan_and_save cfg env order =
            .sinkError ((runScan env.now cfg env.fetchO order).map renderRecord) false ∧
          exitCode (scan_and_save cfg env order) = 1)
       ∧ (env.csvSinkFails = false → env.sheetFails = true →
          scan_and_save cfg env order =
            .sinkError ((runScan env.now cfg env.fetchO order).map renderRecord) true ∧
          exitCode (scan_and_save cfg env order) = 1)
       ∧ (env.csvSinkFails = false → env.sheetFails = false →
          scan_and_save cfg env order =
            .published ((runScan env.now cfg env.fetchO order).map renderRecord) ∧
          exitCode (scan_and_save cfg env order) = 0)) := by
  intro cfg env order csv col hcsv hcol hne
  refine ⟨fun h1 => ?_, fun h1 h2 => ?_, fun h1 h2 => ?_⟩
  · constructor <;> simp [scan_and_save, hcsv, hcol, hne, h1, exitCode]
  · constructor <;> simp [scan_and_save, hcsv, hcol, hne, h1, h2, exitCode]
  · constructor <;> simp [scan_and_save, hcsv, hcol, hne, h1, h2, exitCode]

/-- Witness for the amended C8 at the concrete failing-file-sink run. -/
theorem sinks_sequential_witness :
    envSinkFail.csv = some goodCsv ∧
    findTickerCol goodCsv = some ⟨"Ticker", [some "AAA"]⟩ ∧
    runScan envSinkFail.now defaultConfig envSinkFail.fetchO ["AAA"] ≠ [] ∧
    scan_and_save defaultConfig envSinkFail ["AAA"] =
      .sinkError ((runScan envSinkFail.now defaultConfig envSinkFail.fetchO
        ["AAA"]).map renderRecord) false := by
  have hne : runScan envSinkFail.now defaultConfig envSinkFail.fetchO ["AAA"] ≠ [] := by
    show runScan 0 defaultConfig fetchMix ["AAA"] ≠ []
    rw [runScan_good]
    simp
  exact ⟨rfl, by decide, hne,
    ((sinks_sequential defaultConfig envSinkFail ["AAA"] goodCsv ⟨"Ticker", [some "AAA"]⟩
      rfl (by decide) hne).1 rfl).1⟩

/-! ### Claim C9 -/

/-- Counterexample to C9 as stated: the whitespace-only input " " is
non-empty, is not the acceptance token y, and is not parseable as a number
(Python's float raises on it), yet the run keeps the default silently —
`warned = false` — because the guard treats any input that strips to the
empty string as accepting the preset. -/
theorem blank_override_counterexample :
    (" " : String) ≠ "" ∧ pyLower " " ≠ "y" ∧ pyFloat " " = none ∧
    applyOverride DEFAULT_MIN_MARKET_CAP " " =
      ⟨FV.fin DEFAULT_MIN_MARKET_CAP, false⟩ := by
  refine ⟨by decide, by decide, by decide, by decide⟩

/-- Amended C9: for every input that is non-blank (strips to something
non-empty), is not the acceptance token, and fails to parse as a float, the
override warns and keeps the compiled-in default; and the main flow always
proceeds from the prompts to the scan, whatever the three inputs were. -/
theorem invalid_override_warns :
    (∀ (deflt : ℚ) (inp : String),
       pyLower inp ≠ "y" → pyStrip inp ≠ "" → pyFloat inp = none →
       applyOverride deflt inp = ⟨FV.fin deflt, true⟩)
    ∧ (∀ (i1 i2 i3 : String) (env : Env) (order : List String),
        mainRun i1 i2 i3 env order =
          scan_and_save
            ⟨(applyOverride DEFAULT_MIN_MARKET_CAP i1).value,
             (applyOverride DEFAULT_MIN_AVG_VOLUME i2).value,
             (applyOverride DEFAULT_MAX_PCT i3).value⟩ env order) := by
  refine ⟨?_, fun i1 i2 i3 env order => rfl⟩
  intro deflt inp h1 h2 h3
  simp [applyOverride, h1, h2, h3]

/-- Witness for the amended C9 at a concrete unparseable input. -/
theorem invalid_override_warns_witness :
    pyLower "abc" ≠ "y" ∧ pyStrip "abc" ≠ "" ∧ pyFloat "abc" = none ∧
    applyOverride 5 "abc" = ⟨FV.fin 5, true⟩ :=
  ⟨by decide, by decide, by decide,
    invalid_override_warns.1 5 "abc" (by decide) (by decide) (by decide)⟩

/-! ### Claim C10 -/

theorem high_le_athOf {z b : Bar} {bs : List Bar} (h : z ∈ b :: bs) :
    z.high ≤ athOf b bs := by
  rcases List.mem_cons.mp h with h1 | h2
  · subst h1
    exact le_maxQ_self _ _
  · exact le_maxQ_of_mem _ (List.mem_map_of_mem Bar.high h2)

/-- When the 52-week window is nonempty, the 52-week high is bounded by the
all-time high: the window is a sub-selection of the same High series. -/
theorem w52_le_ath {now : ℤ} {b : Bar} {bs : List Bar} {w : ℚ}
    (hw : w52Of now (b :: bs) = FV.fin w) : w ≤ athOf b bs := by
  cases heq : (b :: bs).filter (fun bb => decide (now - 365 ≤ bb.time)) with
  | nil =>
    have hnan : w52Of now (b :: bs) = FV.nan := by
      simp only [w52Of, heq]
    rw [hnan] at hw
    cases hw
  | cons c cs =>
    have hfin : w52Of now (b :: bs) = FV.fin (maxQ c.high (cs.map Bar.high)) := by
      simp only [w52Of, heq]
    rw [hfin] at hw
    have hmax : w = maxQ c.high (cs.map Bar.high) := (FV.fin.inj hw).symm
    subst hmax
    refine maxQ_le ?_ ?_
    · exact high_le_athOf (List.mem_of_mem_filter
        (show c ∈ (b :: bs).filter (fun bb => decide (now - 365 ≤ bb.time)) by
          rw [heq]; exact List.mem_cons_self c cs))
    · intro y hy
      obtain ⟨z, hz, rfl⟩ := List.mem_map.mp hy
      exact high_le_athOf (List.mem_of_mem_filter
        (show z ∈ (b :: bs).filter (fun bb => decide (now - 365 ≤ bb.time)) by
          rw [heq]; exact List.mem_cons_of_mem c hz))

/-- Proximity to a lower positive reference high is the tighter ratio. -/
theorem ratio_mono {w a c : ℚ} (hw : 0 < w) (ha : 0 < a) (hc : 0 ≤ c) (hwa : w ≤ a) :
    (w - c) / w ≤ (a - c) / a := by
  rw [div_le_div_iff₀ hw ha]
  nlinarith

/-- Ordered disjunct absorption for the IEEE comparison: when the 52-week
ratio is below the ATH ratio (both finite), the ATH disjunct of the
proximity test is redundant. -/
theorem le_or_absorb {qA q52 : ℚ} (h : q52 ≤ qA) (M : FV) :
    (FV.le (FV.fin qA) M || FV.le (FV.fin q52) M) = FV.le (FV.fin q52) M := by
  cases M with
  | fin m =>
    by_cases hA : qA ≤ m
    · simp [FV.le, hA, le_trans h hA]
    · simp [FV.le, hA]
  | inf => simp [FV.le]
  | negInf => simp [FV.le]
  | nan => simp [FV.le]

/-- Counterexample to C10 as stated: a fetched, non-Absent snapshot whose
entire history is older than 365 days has a NaN 52-week high, and the
claimed invariant week52High <= allTimeHigh is false for it (every ordered
comparison with NaN is false). -/
theorem stale_history_counterexample :
    fetch_info 0 "OLD" staleResp = some staleRec ∧
    staleRec.week52High = FV.nan ∧
    FV.le staleRec.week52High (FV.fin staleRec.AllTimeHigh) = false :=
  ⟨fetch_stale_eval, rfl, rfl⟩

/-- Amended C10: for every fetched snapshot whose 52-week window is
nonempty (the 52-week high is a finite value w), w is bounded by the
all-time high; and when moreover the current price is nonnegative and both
highs are positive, the 52-week ratio is below the ATH ratio and the ATH
disjunct of the screening OR is redundant. -/
theorem w52_le_ath_conditional :
    ∀ (now : ℤ) (t : String) (info : Info) (b : Bar) (bs : List Bar) (r : Record)
      (w : ℚ),
      fetch_info now t (.ok info (b :: bs)) = some r →
      r.week52High = FV.fin w →
      (FV.le r.week52High (FV.fin r.AllTimeHigh) = true ∧
       (0 ≤ r.Current → 0 < r.AllTimeHigh → 0 < w →
        FV.le r.PctTo52w r.PctToATH = true ∧
        ∀ M : FV, (FV.le r.PctToATH M || FV.le r.PctTo52w M) = FV.le r.PctTo52w M)) := by
  intro now t info b bs r w hf hw
  have hrec : (⟨t, info.sector.getD ("N/A"), currOf b bs, athOf b bs,
      FV.div (FV.sub (FV.fin (athOf b bs)) (FV.fin (currOf b bs))) (FV.fin (athOf b bs)),
      w52Of now (b :: bs),
      FV.div (FV.sub (w52Of now (b :: bs)) (FV.fin (currOf b bs))) (w52Of now (b :: bs)),
      info.marketCap.getD 0, info.averageVolume.getD 0⟩ : Record) = r :=
    Option.some.inj hf
  subst hrec
  have hw' : w52Of now (b :: bs) = FV.fin w := hw
  have hwA : w ≤ athOf b bs := w52_le_ath hw'
  constructor
  · show FV.le (w52Of now (b :: bs)) (FV.fin (athOf b bs)) = true
    rw [hw', FV.le_fin]
    exact decide_eq_true hwA
  · intro hc ha hwpos
    have hC : (0:ℚ) ≤ currOf b bs := hc
    have hA : (0:ℚ) < athOf b bs := ha
    have hmono : (w - currOf b bs) / w ≤ (athOf b bs - currOf b bs) / athOf b bs :=
      ratio_mono hwpos hA hC hwA
    have h52 : FV.div (FV.sub (w52Of now (b :: bs)) (FV.fin (currOf b bs)))
        (w52Of now (b :: bs)) = FV.fin ((w - currOf b bs) / w) := by
      rw [hw', FV.sub_fin, FV.div_fin (ne_of_gt hwpos)]
    have hATH : FV.div (FV.sub (FV.fin (athOf b bs)) (FV.fin (currOf b bs)))
        (FV.fin (athOf b bs)) = FV.fin ((athOf b bs - currOf b bs) / athOf b bs) := by
      rw [FV.sub_fin, FV.div_fin (ne_of_gt hA)]
    constructor
    · show FV.le
        (FV.div (FV.sub (w52Of now (b :: bs)) (FV.fin (currOf b bs)))
          (w52Of now (b :: bs)))
        (FV.div (FV.sub (FV.fin (athOf b bs)) (FV.fin (currOf b bs)))
          (FV.fin (athOf b bs))) = true
      rw [h52, hATH, FV.le_fin]
      exact decide_eq_true hmono
    · intro M
      show (FV.le (FV.div (FV.sub (FV.fin (athOf b bs)) (FV.fin (currOf b bs)))
          (FV.fin (athOf b bs))) M ||
        FV.le (FV.div (FV.sub (w52Of now (b :: bs)) (FV.fin (currOf b bs)))
          (w52Of now (b :: bs))) M) =
        FV.le (FV.div (FV.sub (w52Of now (b :: bs)) (FV.fin (currOf b bs)))
          (w52Of now (b :: bs))) M
      rw [h52, hATH]
      exact le_or_absorb hmono M

/-- Witness for the amended C10 at the concrete in-window history. -/
theorem w52_le_ath_conditional_witness :
    fetch_info 0 "AAA" (.ok infoFull [goodBar]) = some goodRec ∧
    goodRec.week52High = FV.fin 100 ∧
    FV.le goodRec.week52High (FV.fin goodRec.AllTimeHigh) = true ∧
    FV.le goodRec.PctTo52w goodRec.PctToATH = true := by
  have h := w52_le_ath_conditional 0 "AAA" infoFull goodBar [] goodRec 100
    fetch_good_eval rfl
  exact ⟨fetch_good_eval, rfl, h.1,
    (h.2 (by norm_num [goodRec]) (by norm_num [goodRec]) (by norm_num)).1⟩

end Scanner
